import Mathlib

/-!
Verification of the reporting/annotation engine of `action-junit-report`
(`src/annotator.ts`), as a shallow embedding in Lean 4.

Modelling conventions:
* JavaScript numbers that the program only ever uses as non-negative counts
  (test counts, retries, ids, line numbers) are embedded as `Nat`.
* JavaScript strings are Lean `String`s; the JS `String.prototype.endsWith`
  test is embedded as a list-suffix check (`jsEndsWith`).
* The asynchronous GitHub API traffic of a run is embedded as the list of
  API calls the function issues, in issue order (`CheckApiCall`,
  `CommentApiCall`).  The response of the one lookup the code performs
  (`checks.listForRef`) is passed in as an explicit argument, so the
  functions stay pure.
* The `checks.data.check_runs[0].id` access on an empty match list throws a
  `TypeError` in JavaScript; the embedding returns `Except.error` there.
* `TestResult` and `Annotation` are declared in `testParser.ts`; their
  shapes below are taken from the fields the annotator reads and from the
  data-model section of the specification.
-/

/-- Data model of one reportable test case/issue (fields as read by
`annotator.ts`). -/
structure Annotation where
  path : String
  start_line : Nat
  end_line : Nat
  start_column : Nat
  end_column : Nat
  annotation_level : String
  status : String
  title : String
  message : String
  retries : Nat
deriving DecidableEq

/-- Data model of one test suite/job result (fields as read by
`annotator.ts`). -/
structure TestResult where
  checkName : String
  totalCount : Nat
  passed : Nat
  skipped : Nat
  failed : Nat
  summary : String
  annotations : List Annotation
deriving DecidableEq

/-- Embedding of `annotator.ts` lines 18-20: keep an entry when
`annotateNotice || annotation.annotation_level !== 'notice'`. -/
def filterAnnotations (annotateNotice : Bool) (anns : List Annotation) : List Annotation :=
  anns.filter (fun a => annotateNotice || a.annotation_level != "notice")

/-- Embedding of the template literal of `annotator.ts` line 25. -/
def formattedTitle (tr : TestResult) : String :=
  toString tr.totalCount ++ " tests run, " ++ toString tr.passed ++ " passed, " ++
    toString tr.skipped ++ " skipped, " ++ toString tr.failed ++ " failed."

/-- Embedding of `annotator.ts` lines 21-26: `foundResults` selects between
the formatted title and the fallback title. -/
def buildTitle (tr : TestResult) : String :=
  if tr.totalCount > 0 ∨ tr.skipped > 0 then formattedTitle tr
  else "No test results found!"

/-- Embedding of `annotator.ts` line 30:
`testResult.failed <= 0 ? 'success' : 'failure'`. -/
def conclusion (tr : TestResult) : String :=
  if tr.failed ≤ 0 then "success" else "failure"

/-- Fuel-indexed chunking loop; `chunks50` instantiates the fuel with the
list length, mirroring `for (let i = 0; i < annotations.length; i += 50)
annotations.slice(i, i + 50)` of `annotator.ts` lines 73-76. -/
def chunksGo {α : Type} : Nat → List α → List (List α)
  | _, [] => []
  | 0, _ :: _ => []
  | f + 1, a :: rest => ((a :: rest).take 50) :: chunksGo f ((a :: rest).drop 50)

/-- Consecutive chunks of at most 50 elements, in original order. -/
def chunks50 {α : Type} (l : List α) : List (List α) :=
  chunksGo l.length l

/-- Result of the `checks.listForRef` lookup: the embedding only needs each
returned check run's `id`. -/
structure CheckRun where
  id : Nat
deriving DecidableEq

/-- One GitHub checks-API call issued by the annotator, in issue order.
`create` carries `name`, `head_sha`, `status`, `conclusion`, `output.title`,
`output.summary`, `output.annotations`; `update` carries `check_run_id` and
the same output fields (`annotator.ts` lines 85-96 and 113-121). -/
inductive CheckApiCall where
  | listForRef (ref check_name : String)
  | update (check_run_id : Nat) (title summary : String) (anns : List Annotation)
  | create (name head_sha status conclusion title summary : String)
      (anns : List Annotation)
deriving DecidableEq

/-- Message for the JavaScript `TypeError` thrown by
`checks.data.check_runs[0].id` when the lookup matched no check run. -/
def missingCheckRunError : String :=
  "TypeError: cannot read properties of undefined (reading id)"

/-- Embedding of `annotateTestResult` (`annotator.ts` lines 8-104),
projected onto the GitHub API calls it issues.  `lookup` is the list of
check runs the `listForRef` lookup returns; `Except.error` models the
`TypeError` thrown when that list is empty.  The `annotateOnly` branch
issues no API calls (it only emits workflow commands). -/
def annotateTestResult (testResult : TestResult) (headSha : String)
    (checkAnnotations annotateOnly updateCheck annotateNotice : Bool)
    (jobName : String) (lookup : List CheckRun) :
    Except String (List CheckApiCall) :=
  let anns := filterAnnotations annotateNotice testResult.annotations
  let title := buildTitle testResult
  let concl := conclusion testResult
  if annotateOnly then
    Except.ok []
  else if updateCheck then
    match lookup with
    | [] => Except.error missingCheckRunError
    | run :: _ =>
      if checkAnnotations then
        Except.ok (CheckApiCall.listForRef headSha jobName ::
          (chunks50 anns).map
            (fun c => CheckApiCall.update run.id title testResult.summary c))
      else
        Except.ok [CheckApiCall.listForRef headSha jobName,
          CheckApiCall.update run.id title testResult.summary []]
  else
    Except.ok [CheckApiCall.create testResult.checkName headSha "completed" concl
      title testResult.summary
      ((if checkAnnotations then anns else []).take 50)]

/-- Projection of a call trace onto its `update` calls:
`(check_run_id, title, summary, annotations)` tuples in issue order. -/
def updateCallsOf (calls : List CheckApiCall) :
    List (Nat × String × String × List Annotation) :=
  calls.filterMap (fun c =>
    match c with
    | CheckApiCall.update i t s a => some (i, t, s, a)
    | _ => none)

/-- One cell of a summary table row.  `@actions/core` rows mix plain strings
and `\x7bdata, header: true\x7d` objects; a plain string is embedded as a
cell with `header := false`. -/
structure SummaryTableCell where
  data : String
  header : Bool
deriving DecidableEq

/-- A summary table row is the list of its cells. -/
abbrev SummaryTableRow := List SummaryTableCell

/-- Header-styled cell. -/
def hcell (s : String) : SummaryTableCell := ⟨s, true⟩

/-- Plain-string cell. -/
def dcell (s : String) : SummaryTableCell := ⟨s, false⟩

/-- Header row of the overview table (`annotator.ts` lines 133-141). -/
def overviewHeaderRow : SummaryTableRow :=
  [hcell "", hcell "Tests", hcell "Passed ✅", hcell "Skipped ⏭️", hcell "Failed ❌"]

/-- Header row of the details table (`annotator.ts` lines 143-151). -/
def detailsHeaderRow : SummaryTableRow :=
  [hcell "", hcell "Test", hcell "Result"]

/-- Header row of the flaky table (`annotator.ts` lines 153-161). -/
def flakyHeaderRow : SummaryTableRow :=
  [hcell "", hcell "Test", hcell "Retries"]

/-- Overview row pushed for one result (`annotator.ts` lines 164-170). -/
def overviewRow (tr : TestResult) : SummaryTableRow :=
  [dcell tr.checkName, dcell (toString tr.totalCount ++ " ran"),
   dcell (toString tr.passed ++ " passed"), dcell (toString tr.skipped ++ " skipped"),
   dcell (toString tr.failed ++ " failed")]

/-- Three-way status label of a details row (`annotator.ts` lines 188-194). -/
def statusLabel (a : Annotation) : String :=
  if a.status = "success" then "✅ pass"
  else if a.status = "skipped" then "⏭️ skipped"
  else "❌ " ++ a.annotation_level

/-- Details rows pushed for one result under `detailedSummary`
(`annotator.ts` lines 172-196): a placeholder row when no entry survives the
`includePassed` filter, otherwise one row per surviving entry. -/
def detailRowsFor (includePassed : Bool) (tr : TestResult) : List SummaryTableRow :=
  let anns := tr.annotations.filter
    (fun a => includePassed || a.annotation_level != "notice")
  if anns.length = 0 then
    [[dcell "-", dcell "No test annotations available", dcell "-"]]
  else
    anns.map (fun a => [dcell tr.checkName, dcell a.title, dcell (statusLabel a)])

/-- Flaky rows pushed for one result (`annotator.ts` lines 197-199): one row
per surviving entry with `retries > 0`, collected only inside the
`detailedSummary` pass. -/
def flakyRowsFor (includePassed : Bool) (tr : TestResult) : List SummaryTableRow :=
  let anns := tr.annotations.filter
    (fun a => includePassed || a.annotation_level != "notice")
  (anns.filter (fun a => 0 < a.retries)).map
    (fun a => [dcell tr.checkName, dcell a.title, dcell (toString a.retries)])

/-- Embedding of `buildSummaryTables` (`annotator.ts` lines 127-205).  The
push-loop of the source is rendered as header-plus-mapped-rows; per-result
row order and cross-result order are preserved. -/
def buildSummaryTables (testResults : List TestResult)
    (includePassed detailedSummary flakySummary : Bool) :
    List SummaryTableRow × List SummaryTableRow × List SummaryTableRow :=
  let table := overviewHeaderRow :: testResults.map overviewRow
  let detailsTable :=
    if detailedSummary then
      detailsHeaderRow :: (testResults.map (detailRowsFor includePassed)).flatten
    else []
  let flakyTable :=
    (if flakySummary then [flakyHeaderRow] else []) ++
      (if detailedSummary then
        (testResults.map (flakyRowsFor includePassed)).flatten
      else [])
  (table, detailsTable, flakyTable)

/-- Lower-case hexadecimal digit. -/
def hexDigitChar (n : Nat) : Char :=
  if n < 10 then Char.ofNat (48 + n) else Char.ofNat (87 + n)

/-- JSON escaping of one character, following `JSON.stringify`. -/
def jsonEscapeChar (c : Char) : String :=
  if c = '"' then "\\\""
  else if c = '\\' then "\\\\"
  else if c = '\n' then "\\n"
  else if c = '\r' then "\\r"
  else if c = '\t' then "\\t"
  else if c = Char.ofNat 8 then "\\b"
  else if c = Char.ofNat 12 then "\\f"
  else if c.toNat < 32 then
    "\\u00" ++ String.singleton (hexDigitChar (c.toNat / 16)) ++
      String.singleton (hexDigitChar (c.toNat % 16))
  else String.singleton c

/-- JSON string literal for `s`. -/
def jsonQuote (s : String) : String :=
  "\"" ++ String.join (s.data.map jsonEscapeChar) ++ "\""

/-- `JSON.stringify` of a string array. -/
def jsonStringifyStrings (l : List String) : String :=
  "[" ++ String.intercalate "," (l.map jsonQuote) ++ "]"

/-- Embedding of `buildCommentIdentifier` (`annotator.ts` lines 221-223). -/
def buildCommentIdentifier (checkName : List String) : String :=
  "<!-- Summary comment for " ++ jsonStringifyStrings checkName ++
    " by mikepenz/action-junit-report -->"

/-- One issue comment as returned by the paginated `listComments` call; the
API marks `body` optional. -/
structure IssueComment where
  id : Nat
  body : Option String
deriving DecidableEq

/-- Embedding of the JS `String.prototype.endsWith` suffix test. -/
def jsEndsWith (s pat : String) : Bool :=
  pat.data.isSuffixOf s.data

/-- Predicate of the `comments.find` of `annotator.ts` line 276:
`comment.body?.endsWith(identifier)` (an absent body is falsy). -/
def matchesIdentifier (identifier : String) (c : IssueComment) : Bool :=
  match c.body with
  | some b => jsEndsWith b identifier
  | none => false

/-- Embedding of `findPriorComment` (`annotator.ts` lines 269-278): id of the
first listed comment whose body ends with the identifier. -/
def findPriorComment (comments : List IssueComment) (identifier : String) :
    Option Nat :=
  (comments.find? (matchesIdentifier identifier)).map (fun c => c.id)

/-- One effect of `attachComment`, in issue order.  `warnMissingIssue` is the
warning emitted (with no API traffic) when the context has no PR number. -/
inductive CommentApiCall where
  | warnMissingIssue
  | listComments
  | updateComment (comment_id : Nat) (body : String)
  | createComment (issue_number : Nat) (body : String)
deriving DecidableEq

/-- Comment body built by `attachComment` (`annotator.ts` lines 238-249).
`buildTable` lives in `utils.ts`, outside the annotator; the rendering is
therefore abstracted as the `buildTable` argument — every property proved
below holds for any rendering function. -/
def commentBody (buildTable : List SummaryTableRow → String)
    (checkName : List String)
    (table detailsTable flakySummary : List SummaryTableRow) : String :=
  let identifier := buildCommentIdentifier checkName
  let c1 := buildTable table
  let c2 := if detailsTable.length > 0 then c1 ++ "\n\n" ++ buildTable detailsTable else c1
  let c3 := if flakySummary.length > 1 then c2 ++ "\n\n" ++ buildTable flakySummary else c2
  c3 ++ "\n\n" ++ identifier

/-- Embedding of `attachComment` (`annotator.ts` lines 225-267), projected
onto its effects.  `issueNumber` is `context.issue.number`; `none` (and the
falsy `0`) model a missing PR reference.  `comments` is what the paginated
`listComments` call returns.  The source's `if (priorComment)` guard (line
252) tests JS truthiness of the found id, so a found comment whose id is the
falsy `0` takes the create branch, exactly like no match at all. -/
def attachComment (buildTable : List SummaryTableRow → String)
    (issueNumber : Option Nat) (checkName : List String) (updateComment : Bool)
    (table detailsTable flakySummary : List SummaryTableRow)
    (comments : List IssueComment) : List CommentApiCall :=
  match issueNumber with
  | none => [CommentApiCall.warnMissingIssue]
  | some n =>
    if n = 0 then [CommentApiCall.warnMissingIssue]
    else
      let identifier := buildCommentIdentifier checkName
      let body := commentBody buildTable checkName table detailsTable flakySummary
      if updateComment then
        match findPriorComment comments identifier with
        | some cid =>
          if cid = 0 then
            [CommentApiCall.listComments, CommentApiCall.createComment n body]
          else
            [CommentApiCall.listComments, CommentApiCall.updateComment cid body]
        | none => [CommentApiCall.listComments,
            CommentApiCall.createComment n body]
      else [CommentApiCall.createComment n body]

/-- Bodies transmitted by a comment effect trace (create and update calls). -/
def commentBodiesOf (calls : List CommentApiCall) : List String :=
  calls.filterMap (fun c =>
    match c with
    | CommentApiCall.updateComment _ b => some b
    | CommentApiCall.createComment _ b => some b
    | _ => none)

/-- Number of `updateComment` calls in a trace. -/
def numUpdateComments (calls : List CommentApiCall) : Nat :=
  (calls.filter (fun c =>
    match c with
    | CommentApiCall.updateComment _ _ => true
    | _ => false)).length

/-- Number of `createComment` calls in a trace. -/
def numCreateComments (calls : List CommentApiCall) : Nat :=
  (calls.filter (fun c =>
    match c with
    | CommentApiCall.createComment _ _ => true
    | _ => false)).length

/-- Number of `listComments` calls in a trace. -/
def numListComments (calls : List CommentApiCall) : Nat :=
  (calls.filter (fun c =>
    match c with
    | CommentApiCall.listComments => true
    | _ => false)).length

/-- Concrete failure-level entry used to instantiate proved properties. -/
def wAnn : Annotation :=
  ⟨"test/calc.test.ts", 12, 12, 0, 0, "failure", "failure", "calc adds", "expected 2", 0⟩

/-- Concrete notice-level entry used to instantiate proved properties. -/
def wNoticeAnn : Annotation :=
  ⟨"test/calc.test.ts", 20, 20, 0, 0, "notice", "success", "calc subs", "ok", 0⟩

/-- Concrete failing result used to instantiate proved properties. -/
def wFailTR : TestResult := ⟨"unit", 5, 4, 0, 1, "sum", [wAnn]⟩

/-- Concrete passing result used to instantiate proved properties. -/
def wPassTR : TestResult := ⟨"unit", 5, 5, 0, 0, "sum", [wNoticeAnn]⟩

/-- Concrete empty result used to instantiate proved properties. -/
def wEmptyTR : TestResult := ⟨"unit", 0, 0, 0, 0, "sum", []⟩

/-- Concrete table rendering used to instantiate proved properties. -/
def wBT : List SummaryTableRow → String := fun _ => "TABLE"

/-- Concrete comment body used to instantiate proved properties. -/
def wBody : String := commentBody wBT ["a"] [] [] []

/-- Flattening the chunks of the fuel-indexed loop restores the list. -/
theorem chunksGo_flatten {α : Type} (fuel : Nat) (l : List α)
    (h : l.length ≤ fuel) : (chunksGo fuel l).flatten = l := by
  induction fuel generalizing l with
  | zero =>
    cases l with
    | nil => rfl
    | cons a rest => simp only [List.length_cons] at h; omega
  | succ f ih =>
    cases l with
    | nil => rfl
    | cons a rest =>
      have hd : ((a :: rest).drop 50).length ≤ f := by
        simp only [List.length_drop, List.length_cons]
        simp only [List.length_cons] at h
        omega
      simp only [chunksGo, List.flatten_cons]
      rw [ih _ hd, List.take_append_drop]

/-- Number of chunks produced by the fuel-indexed loop. -/
theorem chunksGo_length {α : Type} (fuel : Nat) (l : List α)
    (h : l.length ≤ fuel) : (chunksGo fuel l).length = (l.length + 49) / 50 := by
  induction fuel generalizing l with
  | zero =>
    cases l with
    | nil => simp [chunksGo]
    | cons a rest => simp only [List.length_cons] at h; omega
  | succ f ih =>
    cases l with
    | nil => simp [chunksGo]
    | cons a rest =>
      have hd : ((a :: rest).drop 50).length ≤ f := by
        simp only [List.length_drop, List.length_cons]
        simp only [List.length_cons] at h
        omega
      simp only [chunksGo, List.length_cons, ih _ hd, List.length_drop]
      omega

/-- Every chunk of the fuel-indexed loop has at most 50 elements. -/
theorem chunksGo_mem_length {α : Type} (fuel : Nat) (l : List α) (c : List α)
    (hc : c ∈ chunksGo fuel l) : c.length ≤ 50 := by
  induction fuel generalizing l with
  | zero =>
    cases l with
    | nil => simp [chunksGo] at hc
    | cons a rest => simp [chunksGo] at hc
  | succ f ih =>
    cases l with
    | nil => simp [chunksGo] at hc
    | cons a rest =>
      simp only [chunksGo, List.mem_cons] at hc
      cases hc with
      | inl h => subst h; rw [List.length_take]; omega
      | inr h => exact ih _ h

/-- Flattening `chunks50` restores the original list. -/
theorem chunks50_flatten {α : Type} (l : List α) : (chunks50 l).flatten = l :=
  chunksGo_flatten l.length l (Nat.le_refl _)

/-- `chunks50` produces `ceil(length / 50)` chunks. -/
theorem chunks50_length_eq {α : Type} (l : List α) :
    (chunks50 l).length = (l.length + 49) / 50 :=
  chunksGo_length l.length l (Nat.le_refl _)

/-- Every `chunks50` chunk has at most 50 elements. -/
theorem chunks50_mem_length {α : Type} (l c : List α) (hc : c ∈ chunks50 l) :
    c.length ≤ 50 :=
  chunksGo_mem_length l.length l c hc

/-- Appending a string makes it a `jsEndsWith` suffix of the result. -/
theorem jsEndsWith_append (a b : String) : jsEndsWith (a ++ b) b = true := by
  simp only [jsEndsWith, String.data_append]
  rw [List.isSuffixOf_iff_suffix]
  exact List.suffix_append a.data b.data

/-- The formatted count title is never the fallback title (it is strictly
longer than the fallback, whatever the counts are). -/
theorem formattedTitle_ne_fallback (tr : TestResult) :
    formattedTitle tr ≠ "No test results found!" := by
  intro h
  have hlen := congrArg String.length h
  have e1 : (" tests run, " : String).length = 12 := rfl
  have e2 : (" passed, " : String).length = 9 := rfl
  have e3 : (" skipped, " : String).length = 10 := rfl
  have e4 : (" failed." : String).length = 8 := rfl
  have e0 : ("No test results found!" : String).length = 22 := rfl
  simp only [formattedTitle, String.length_append, e1, e2, e3, e4, e0] at hlen
  omega

/-- A leading `listForRef` call contributes no update call. -/
theorem updateCallsOf_cons_list (r cn : String) (calls : List CheckApiCall) :
    updateCallsOf (CheckApiCall.listForRef r cn :: calls) = updateCallsOf calls :=
  rfl

/-- Update calls built from a chunk list project back onto their tuples. -/
theorem updateCallsOf_map_update (i : Nat) (t s : String)
    (l : List (List Annotation)) :
    updateCallsOf (l.map (fun c => CheckApiCall.update i t s c)) =
      l.map (fun c => (i, t, s, c)) := by
  induction l with
  | nil => rfl
  | cons a l ih =>
    rw [List.map_cons, List.map_cons]
    rw [show updateCallsOf (CheckApiCall.update i t s a ::
      l.map (fun c => CheckApiCall.update i t s c)) = (i, t, s, a) ::
      updateCallsOf (l.map (fun c => CheckApiCall.update i t s c)) from rfl]
    rw [ih]

/-- C1: the conclusion computed by `annotateTestResult` (`annotator.ts`
line 30) is `failure` whenever `failed > 0` and `success` whenever
`failed == 0`, and it depends on no field other than `failed`. -/
theorem conclusion_only_failed (tr tr2 : TestResult) :
    (0 < tr.failed → conclusion tr = "failure") ∧
    (tr.failed = 0 → conclusion tr = "success") ∧
    (tr.failed = tr2.failed → conclusion tr = conclusion tr2) := by
  refine ⟨fun h => ?_, fun h => ?_, fun h => ?_⟩
  · rw [conclusion, if_neg (by omega)]
  · rw [conclusion, if_pos (by omega)]
  · rw [conclusion, conclusion, h]

/-- Witness for C1 at a failing and at a passing concrete result. -/
theorem conclusion_only_failed_witness :
    conclusion wFailTR = "failure" ∧ conclusion wPassTR = "success" :=
  ⟨(conclusion_only_failed wFailTR wFailTR).1 (by decide),
   (conclusion_only_failed wPassTR wPassTR).2.1 (by decide)⟩

/-- C8: the computed title is the fallback `No test results found!` exactly
when `totalCount == 0` and `skipped == 0`; otherwise it is the formatted
count string. -/
theorem buildTitle_cases (tr : TestResult) :
    (buildTitle tr = "No test results found!" ↔
      tr.totalCount = 0 ∧ tr.skipped = 0) ∧
    (¬(tr.totalCount = 0 ∧ tr.skipped = 0) →
      buildTitle tr = formattedTitle tr) := by
  constructor
  · constructor
    · intro h
      by_contra hc
      rw [buildTitle, if_pos (by omega)] at h
      exact formattedTitle_ne_fallback tr h
    · intro h
      rw [buildTitle, if_neg (by omega)]
  · intro h
    rw [buildTitle, if_pos (by omega)]

/-- Witness for C8 at an empty and at a non-empty concrete result. -/
theorem buildTitle_cases_witness :
    buildTitle wEmptyTR = "No test results found!" ∧
    buildTitle wFailTR = formattedTitle wFailTR :=
  ⟨(buildTitle_cases wEmptyTR).1.mpr (by decide),
   (buildTitle_cases wFailTR).2 (by decide)⟩

/-- C4: under `updateCheck`, a lookup that matches no in-progress check run
makes the run fail with the indexing `TypeError`; no update call is issued
(the result carries no call list at all). -/
theorem annotate_missing_check_run (tr : TestResult) (headSha : String)
    (checkAnnotations annotateNotice : Bool) (jobName : String) :
    annotateTestResult tr headSha checkAnnotations false true annotateNotice
      jobName [] = Except.error missingCheckRunError := rfl

/-- C6: on the create path exactly one create call is issued; with
annotations enabled it carries the first `min(N, 50)` eligible annotations
in original order (the 50-prefix of the filtered list), and with
annotations disabled it carries none. -/
theorem annotate_create_call (tr : TestResult) (headSha : String)
    (annotateNotice : Bool) (jobName : String) (lookup : List CheckRun) :
    (annotateTestResult tr headSha true false false annotateNotice jobName
        lookup =
      Except.ok [CheckApiCall.create tr.checkName headSha "completed"
        (conclusion tr) (buildTitle tr) tr.summary
        ((filterAnnotations annotateNotice tr.annotations).take 50)] ∧
     ((filterAnnotations annotateNotice tr.annotations).take 50).length =
       min (filterAnnotations annotateNotice tr.annotations).length 50) ∧
    annotateTestResult tr headSha false false false annotateNotice jobName
        lookup =
      Except.ok [CheckApiCall.create tr.checkName headSha "completed"
        (conclusion tr) (buildTitle tr) tr.summary []] := by
  refine ⟨⟨rfl, ?_⟩, rfl⟩
  rw [List.length_take]
  omega

/-- C3 counterexample: with `detailedSummary := false` and
`flakySummary := true` the flaky table still contains its header row, so it
is not empty (the claim expects both returned tables to be empty). -/
theorem buildSummaryTables_flaky_not_empty :
    ¬((buildSummaryTables [] false false true).2.1 = [] ∧
      (buildSummaryTables [] false false true).2.2 = []) := by decide

/-- C3 amended: with `detailedSummary := false` the details table is always
empty, and the flaky table is the bare header row when `flakySummary` is
set and empty otherwise. -/
theorem buildSummaryTables_not_detailed (trs : List TestResult)
    (ip fs : Bool) :
    (buildSummaryTables trs ip false fs).2.1 = [] ∧
    (buildSummaryTables trs ip false fs).2.2 =
      (if fs then [flakyHeaderRow] else []) := by
  refine ⟨rfl, ?_⟩
  cases fs <;> rfl

/-- C10: under `updateCheck` with a found run and an empty filtered
annotation list, enabled annotations issue zero update calls (title and
summary are not refreshed), while disabled annotations issue exactly one
update call with an empty annotation list carrying title and summary. -/
theorem annotate_update_empty_filtered (tr : TestResult) (headSha : String)
    (annotateNotice : Bool) (jobName : String) (run : CheckRun)
    (rest : List CheckRun)
    (h : filterAnnotations annotateNotice tr.annotations = []) :
    annotateTestResult tr headSha true false true annotateNotice jobName
      (run :: rest) = Except.ok [CheckApiCall.listForRef headSha jobName] ∧
    annotateTestResult tr headSha false false true annotateNotice jobName
      (run :: rest) = Except.ok [CheckApiCall.listForRef headSha jobName,
        CheckApiCall.update run.id (buildTitle tr) tr.summary []] := by
  refine ⟨?_, rfl⟩
  have h1 : annotateTestResult tr headSha true false true annotateNotice
      jobName (run :: rest) =
      Except.ok (CheckApiCall.listForRef headSha jobName ::
        (chunks50 (filterAnnotations annotateNotice tr.annotations)).map
          (fun c => CheckApiCall.update run.id (buildTitle tr) tr.summary c)) :=
    rfl
  rw [h1, h]
  rfl

/-- Witness for C10 at a concrete result with no annotations. -/
theorem annotate_update_empty_filtered_witness :
    annotateTestResult wEmptyTR "sha" true false true true "job" [⟨1⟩] =
      Except.ok [CheckApiCall.listForRef "sha" "job"] ∧
    annotateTestResult wEmptyTR "sha" false false true true "job" [⟨1⟩] =
      Except.ok [CheckApiCall.listForRef "sha" "job",
        CheckApiCall.update 1 (buildTitle wEmptyTR) "sum" []] :=
  annotate_update_empty_filtered wEmptyTR "sha" true "job" ⟨1⟩ [] rfl

/-- C2: under `updateCheck` with annotations enabled and a found check run,
exactly `ceil(N/50)` update calls are issued for a filtered list of length
`N`; every update call carries at most 50 annotations and the same title
and summary, and the concatenation of the chunks in issue order is exactly
the filtered list. -/
theorem annotate_update_chunking (tr : TestResult) (headSha : String)
    (annotateNotice : Bool) (jobName : String) (run : CheckRun)
    (rest : List CheckRun) (calls : List CheckApiCall)
    (h : annotateTestResult tr headSha true false true annotateNotice jobName
      (run :: rest) = Except.ok calls) :
    (updateCallsOf calls).length =
      ((filterAnnotations annotateNotice tr.annotations).length + 49) / 50 ∧
    (∀ u ∈ updateCallsOf calls,
      u.2.2.2.length ≤ 50 ∧ u.2.1 = buildTitle tr ∧ u.2.2.1 = tr.summary) ∧
    ((updateCallsOf calls).map (fun u => u.2.2.2)).flatten =
      filterAnnotations annotateNotice tr.annotations := by
  have h2 : Except.ok (CheckApiCall.listForRef headSha jobName ::
      (chunks50 (filterAnnotations annotateNotice tr.annotations)).map
        (fun c => CheckApiCall.update run.id (buildTitle tr) tr.summary c)) =
      Except.ok (ε := String) calls := h
  have hc := Except.ok.inj h2
  subst hc
  rw [updateCallsOf_cons_list, updateCallsOf_map_update]
  refine ⟨?_, ?_, ?_⟩
  · rw [List.length_map, chunks50_length_eq]
  · intro u hu
    obtain ⟨c, hmem, hup⟩ := List.mem_map.mp hu
    subst hup
    exact ⟨chunks50_mem_length _ c hmem, rfl, rfl⟩
  · rw [List.map_map]
    have : ((fun u : Nat × String × String × List Annotation => u.2.2.2) ∘
        (fun c => (run.id, buildTitle tr, tr.summary, c))) =
        (fun c : List Annotation => c) := rfl
    rw [this, List.map_id']
    exact chunks50_flatten _

/-- Witness for C2 at a concrete one-annotation result: a single update
call carrying the whole filtered list. -/
theorem annotate_update_chunking_witness :
    (updateCallsOf [CheckApiCall.listForRef "sha" "job",
        CheckApiCall.update 1 (buildTitle wFailTR) "sum" [wAnn]]).length =
      ((filterAnnotations true wFailTR.annotations).length + 49) / 50 ∧
    (∀ u ∈ updateCallsOf [CheckApiCall.listForRef "sha" "job",
        CheckApiCall.update 1 (buildTitle wFailTR) "sum" [wAnn]],
      u.2.2.2.length ≤ 50 ∧ u.2.1 = buildTitle wFailTR ∧
        u.2.2.1 = wFailTR.summary) ∧
    ((updateCallsOf [CheckApiCall.listForRef "sha" "job",
        CheckApiCall.update 1 (buildTitle wFailTR) "sum" [wAnn]]).map
      (fun u => u.2.2.2)).flatten = filterAnnotations true wFailTR.annotations :=
  annotate_update_chunking wFailTR "sha" true "job" ⟨1⟩ [] _ rfl

/-- C9: with no PR/issue number in the context (absent, or the falsy `0`),
`attachComment` emits only the warning — no list, create, or update call —
and returns normally rather than raising an error. -/
theorem attachComment_no_issue_number
    (buildTable : List SummaryTableRow → String) (checkName : List String)
    (updateComment : Bool) (t d f : List SummaryTableRow)
    (comments : List IssueComment) :
    attachComment buildTable none checkName updateComment t d f comments =
      [CommentApiCall.warnMissingIssue] ∧
    attachComment buildTable (some 0) checkName updateComment t d f comments =
      [CommentApiCall.warnMissingIssue] :=
  ⟨rfl, rfl⟩

/-- C5 counterexample: at a concrete run with `updateComment := true` where
the only listed comment matches the identifier but carries the JS-falsy id
`0`, the source's `if (priorComment)` guard (`annotator.ts` line 252) takes
the create branch, so one create and zero updates are performed — not one
update and zero creates as the claim states. -/
theorem attachComment_match_id_zero_creates :
    matchesIdentifier (buildCommentIdentifier ["a"]) ⟨0, some wBody⟩ = true ∧
    ¬(numUpdateComments (attachComment wBT (some 1) ["a"] true [] [] []
        [⟨0, some wBody⟩]) = 1 ∧
      numCreateComments (attachComment wBT (some 1) ["a"] true [] [] []
        [⟨0, some wBody⟩]) = 0) := by decide

/-- C5 amended: with a PR number present, `updateComment := true` lists the
comments and then updates the first one whose body ends with the identifier
provided its id is truthy (one update, zero creates, targeting that id); a
first match with the falsy id `0` yields one create and zero updates, as
when no comment matches; with `updateComment := false` a single create is
issued and the comments are never listed. -/
theorem attachComment_reconciliation
    (buildTable : List SummaryTableRow → String) (n : Nat) (hn : n ≠ 0)
    (checkName : List String) (t d f : List SummaryTableRow)
    (comments : List IssueComment) :
    (attachComment buildTable (some n) checkName true t d f comments =
      match findPriorComment comments (buildCommentIdentifier checkName) with
      | some cid =>
        if cid = 0 then
          [CommentApiCall.listComments, CommentApiCall.createComment n
            (commentBody buildTable checkName t d f)]
        else
          [CommentApiCall.listComments, CommentApiCall.updateComment cid
            (commentBody buildTable checkName t d f)]
      | none => [CommentApiCall.listComments,
          CommentApiCall.createComment n
            (commentBody buildTable checkName t d f)]) ∧
    (∀ cid, findPriorComment comments (buildCommentIdentifier checkName) =
        some cid → cid ≠ 0 →
      attachComment buildTable (some n) checkName true t d f comments =
        [CommentApiCall.listComments, CommentApiCall.updateComment cid
          (commentBody buildTable checkName t d f)] ∧
      numUpdateComments (attachComment buildTable (some n) checkName true
        t d f comments) = 1 ∧
      numCreateComments (attachComment buildTable (some n) checkName true
        t d f comments) = 0) ∧
    ((∀ c ∈ comments,
        matchesIdentifier (buildCommentIdentifier checkName) c = false) →
      numCreateComments (attachComment buildTable (some n) checkName true
        t d f comments) = 1 ∧
      numUpdateComments (attachComment buildTable (some n) checkName true
        t d f comments) = 0) ∧
    (attachComment buildTable (some n) checkName false t d f comments =
      [CommentApiCall.createComment n
        (commentBody buildTable checkName t d f)] ∧
     numListComments (attachComment buildTable (some n) checkName false
       t d f comments) = 0) := by
  have key : attachComment buildTable (some n) checkName true t d f comments =
      match findPriorComment comments (buildCommentIdentifier checkName) with
      | some cid =>
        if cid = 0 then
          [CommentApiCall.listComments, CommentApiCall.createComment n
            (commentBody buildTable checkName t d f)]
        else
          [CommentApiCall.listComments, CommentApiCall.updateComment cid
            (commentBody buildTable checkName t d f)]
      | none => [CommentApiCall.listComments,
          CommentApiCall.createComment n
            (commentBody buildTable checkName t d f)] := by
    have step : attachComment buildTable (some n) checkName true t d f
        comments =
        if n = 0 then [CommentApiCall.warnMissingIssue]
        else
          match findPriorComment comments (buildCommentIdentifier checkName) with
          | some cid =>
            if cid = 0 then
              [CommentApiCall.listComments, CommentApiCall.createComment n
                (commentBody buildTable checkName t d f)]
            else
              [CommentApiCall.listComments, CommentApiCall.updateComment cid
                (commentBody buildTable checkName t d f)]
          | none => [CommentApiCall.listComments,
              CommentApiCall.createComment n
                (commentBody buildTable checkName t d f)] := rfl
    rw [step, if_neg hn]
  have keyF : attachComment buildTable (some n) checkName false t d f
      comments = [CommentApiCall.createComment n
        (commentBody buildTable checkName t d f)] := by
    have step : attachComment buildTable (some n) checkName false t d f
        comments =
        if n = 0 then [CommentApiCall.warnMissingIssue]
        else [CommentApiCall.createComment n
          (commentBody buildTable checkName t d f)] := rfl
    rw [step, if_neg hn]
  refine ⟨key, ?_, ?_, keyF, by rw [keyF]; rfl⟩
  · intro cid hfp hcid
    have hupd : attachComment buildTable (some n) checkName true t d f
        comments =
        if cid = 0 then
          [CommentApiCall.listComments, CommentApiCall.createComment n
            (commentBody buildTable checkName t d f)]
        else
          [CommentApiCall.listComments, CommentApiCall.updateComment cid
            (commentBody buildTable checkName t d f)] := by
      rw [key, hfp]
    rw [hupd, if_neg hcid]
    exact ⟨rfl, rfl, rfl⟩
  · intro hall
    have hnone : comments.find?
        (matchesIdentifier (buildCommentIdentifier checkName)) = none :=
      List.find?_eq_none.mpr (fun x hx => by
        rw [hall x hx]
        exact Bool.false_ne_true)
    have hfp : findPriorComment comments (buildCommentIdentifier checkName) =
        none := by
      unfold findPriorComment
      rw [hnone]
      rfl
    rw [key, hfp]
    exact ⟨rfl, rfl⟩

/-- Witness for C5 on the no-update path at concrete inputs. -/
theorem attachComment_reconciliation_witness :
    attachComment wBT (some 1) ["a"] false [] [] [] [] =
      [CommentApiCall.createComment 1 (commentBody wBT ["a"] [] [] [])] :=
  (attachComment_reconciliation wBT 1 (by decide) ["a"] [] [] [] []).2.2.2.1

/-- C7: every body transmitted by `attachComment` ends (direct suffix
check) with the identifier computed by `buildCommentIdentifier`, which is
the deterministic string built from the literal wrapper and the
JSON-serialized check-name list. -/
theorem attachComment_body_suffix
    (buildTable : List SummaryTableRow → String) (issueNumber : Option Nat)
    (checkName : List String) (updateComment : Bool)
    (t d f : List SummaryTableRow) (comments : List IssueComment) (b : String)
    (hb : b ∈ commentBodiesOf (attachComment buildTable issueNumber checkName
      updateComment t d f comments)) :
    jsEndsWith b (buildCommentIdentifier checkName) = true ∧
    buildCommentIdentifier checkName =
      "<!-- Summary comment for " ++ jsonStringifyStrings checkName ++
        " by mikepenz/action-junit-report -->" := by
  refine ⟨?_, rfl⟩
  have hone : jsEndsWith (commentBody buildTable checkName t d f)
      (buildCommentIdentifier checkName) = true := by
    unfold commentBody
    exact jsEndsWith_append _ _
  have hbody : b = commentBody buildTable checkName t d f := by
    rcases issueNumber with _ | n
    · simp [attachComment, commentBodiesOf] at hb
    · rcases eq_or_ne n 0 with h0 | h0
      · subst h0
        simp [attachComment, commentBodiesOf] at hb
      · have step : attachComment buildTable (some n) checkName updateComment
            t d f comments =
            if n = 0 then [CommentApiCall.warnMissingIssue]
            else
              if updateComment then
                match findPriorComment comments
                    (buildCommentIdentifier checkName) with
                | some cid =>
                  if cid = 0 then
                    [CommentApiCall.listComments,
                      CommentApiCall.createComment n
                        (commentBody buildTable checkName t d f)]
                  else
                    [CommentApiCall.listComments,
                      CommentApiCall.updateComment cid
                        (commentBody buildTable checkName t d f)]
                | none => [CommentApiCall.listComments,
                    CommentApiCall.createComment n
                      (commentBody buildTable checkName t d f)]
              else [CommentApiCall.createComment n
                (commentBody buildTable checkName t d f)] := rfl
        rw [step, if_neg h0] at hb
        cases updateComment with
        | false => simpa [commentBodiesOf] using hb
        | true =>
          rcases hfp : findPriorComment comments
              (buildCommentIdentifier checkName) with _ | cid
          · rw [hfp] at hb
            simpa [commentBodiesOf] using hb
          · rw [hfp] at hb
            rcases eq_or_ne cid 0 with hc0 | hc0
            · simpa [commentBodiesOf, hc0] using hb
            · simpa [commentBodiesOf, hc0] using hb
  rw [hbody]
  exact hone

/-- Witness for C7 at a concrete created body. -/
theorem attachComment_body_suffix_witness :
    jsEndsWith wBody (buildCommentIdentifier ["a"]) = true ∧
    buildCommentIdentifier ["a"] =
      "<!-- Summary comment for " ++ jsonStringifyStrings ["a"] ++
        " by mikepenz/action-junit-report -->" :=
  attachComment_body_suffix wBT (some 1) ["a"] false [] [] [] [] wBody
    (List.mem_singleton.mpr rfl)
